import Mathlib

/-!
Verification development for the `reward` crate of radicle-client-tools
(`src/reward/src/lib.rs`).  The Rust code is shallowly embedded: pure
helpers become Lean functions, fallible code returns an `Outcome` value
distinguishing `ok`, surfaced errors (`anyhow`/`bail!`) and panics
(`unwrap`/`panic!`), and the git repository, wallet backends and the
interactive selection prompt are explicit state passed to the operations.
Machine integers are `Nat`/`Fin`; Ethereum addresses are 20-byte values,
modelled as `Fin (16 ^ 40)`, and 256-bit scalars as `Fin (16 ^ 64)`.
-/

/-! ### Hexadecimal codec

`hex::encode` (used on the decoded project id) and the hex renderings of
addresses and 256-bit scalars produced by the serde serializers of the
`ethers` types.  Fixed-width big-endian lowercase hex; widths follow the
byte sizes of the Rust types (2 per byte, 40 for `Address`, 64 for `U256`).
-/

def hexDigit (d : Nat) : Char :=
  if d < 10 then Char.ofNat (48 + d) else Char.ofNat (87 + d)

def hexVal (c : Char) : Option Nat :=
  if 48 ≤ c.toNat ∧ c.toNat ≤ 57 then some (c.toNat - 48)
  else if 97 ≤ c.toNat ∧ c.toNat ≤ 102 then some (c.toNat - 87)
  else none

def toHexFixed : Nat → Nat → List Char
  | 0, _ => []
  | w + 1, n => hexDigit (n / 16 ^ w) :: toHexFixed w (n % 16 ^ w)

def fromHexBE : List Char → Nat → Option Nat
  | [], acc => some acc
  | c :: cs, acc =>
    match hexVal c with
    | none => none
    | some v => fromHexBE cs (16 * acc + v)

/-- `hex::encode`: each byte becomes two lowercase hex characters. -/
def hexEncode (bytes : List Nat) : String :=
  String.mk ((bytes.map fun b => toHexFixed 2 b).flatten)

/-! ### z-base-32 decoding

Embedding of `zbase32::decode_full_bytes_str`: each character contributes
5 bits (most significant first); only the full bytes of the resulting bit
stream are returned, i.e. `5 * n / 8` bytes for `n` characters.  Any
character outside the z-base-32 alphabet is a decode error. -/

def charIndex (c : Char) : List Char → Nat → Option Nat
  | [], _ => none
  | d :: ds, i => if d = c then some i else charIndex c ds (i + 1)

def zbase32Val (c : Char) : Option Nat :=
  charIndex c "ybndrfg8ejkmcpqxot1uwisza345h769".data 0

/-- The five bits of a z-base-32 symbol value, most significant first. -/
def bitsOfVal (v : Nat) : List Nat :=
  [v / 16 % 2, v / 8 % 2, v / 4 % 2, v / 2 % 2, v % 2]

/-- Regroup a bit stream into bytes, dropping a trailing partial byte. -/
def bytesOfBits : List Nat → List Nat
  | b0 :: b1 :: b2 :: b3 :: b4 :: b5 :: b6 :: b7 :: rest =>
    (b0 * 128 + b1 * 64 + b2 * 32 + b3 * 16 + b4 * 8 + b5 * 4 + b6 * 2 + b7)
      :: bytesOfBits rest
  | _ => []

def zbase32Decode (s : String) : Option (List Nat) :=
  (s.data.mapM zbase32Val).map fun vs => bytesOfBits (vs.map bitsOfVal).flatten

/-! ### JSON values

The payloads this tool reads and writes are flat JSON objects whose fields
are strings or numbers, so JSON documents are modelled as flat objects (or
a bare leaf).  `jsonToString` mirrors `serde_json::to_string` (compact,
declaration-ordered fields). -/

inductive JVal where
  | str : String → JVal
  | num : Nat → JVal
deriving DecidableEq

inductive Json where
  | jval : JVal → Json
  | obj : List (String × JVal) → Json
deriving DecidableEq

def jvalToString : JVal → String
  | .str s => "\"" ++ s ++ "\""
  | .num n => toString n

def fieldToString (f : String × JVal) : String :=
  "\"" ++ f.1 ++ "\":" ++ jvalToString f.2

def fieldsToString : List (String × JVal) → String
  | [] => ""
  | [f] => fieldToString f
  | f :: g :: rest => fieldToString f ++ "," ++ fieldsToString (g :: rest)

def jsonToString : Json → String
  | .jval v => jvalToString v
  | .obj fields => "\x7b" ++ fieldsToString fields ++ "\x7d"

/-! ### Addresses and 256-bit scalars -/

abbrev Address := Fin (16 ^ 40)

abbrev U256 := Fin (16 ^ 64)

/-- serde rendering of an `ethers` `Address`: `0x` plus 40 hex digits. -/
def serializeAddr (a : Address) : JVal :=
  .str (String.mk ('0' :: 'x' :: toHexFixed 40 a.val))

/-- serde parsing of an `ethers` `Address` from a JSON string. -/
def decodeJAddr : JVal → Option Address
  | .str s =>
    match s.data with
    | '0' :: 'x' :: rest =>
      if rest.length = 40 then
        (fromHexBE rest 0).bind fun n =>
          if h : n < 16 ^ 40 then some ⟨n, h⟩ else none
      else none
    | _ => none
  | .num _ => none

/-- serde rendering of an `ethers` `U256` as a hex string. The `ethers`
codec uses minimal-width hex; a fixed 64-digit rendering is used here as an
equivalent injective hex rendering of the 32-byte value. -/
def serializeU256 (a : U256) : JVal :=
  .str (String.mk ('0' :: 'x' :: toHexFixed 64 a.val))

def decodeJU256 : JVal → Option U256
  | .str s =>
    match s.data with
    | '0' :: 'x' :: rest =>
      if rest.length = 64 then
        (fromHexBE rest 0).bind fun n =>
          if h : n < 16 ^ 64 then some ⟨n, h⟩ else none
      else none
    | _ => none
  | .num _ => none

def decodeJStr : JVal → Option String
  | .str s => some s
  | .num _ => none

def decodeJNat : JVal → Option Nat
  | .num n => some n
  | .str _ => none

/-! ### Data model: `Puzzle` and `Proof` (lib.rs lines 20-37)

`serde_json` serialization keeps the field declaration order; the derived
deserializers require every declared field and ignore unknown fields
(serde's default).  Duplicate keys do not arise in the values this
development decodes, so field lookup takes the first occurrence. -/

structure Puzzle where
  org : Address
  contributor : Address
  commit : String
  project : String
deriving DecidableEq

structure Proof where
  org : Address
  contributor : Address
  commit : String
  project : String
  v : Nat
  r : U256
  s : U256
deriving DecidableEq

def serializePuzzle (p : Puzzle) : Json :=
  .obj [("org", serializeAddr p.org), ("contributor", serializeAddr p.contributor),
        ("commit", .str p.commit), ("project", .str p.project)]

def decodePuzzle : Json → Option Puzzle
  | .obj fields => do
    let org ← (fields.lookup "org").bind decodeJAddr
    let contributor ← (fields.lookup "contributor").bind decodeJAddr
    let commit ← (fields.lookup "commit").bind decodeJStr
    let project ← (fields.lookup "project").bind decodeJStr
    pure ⟨org, contributor, commit, project⟩
  | .jval _ => none

def serializeProof (pr : Proof) : Json :=
  .obj [("org", serializeAddr pr.org), ("contributor", serializeAddr pr.contributor),
        ("commit", .str pr.commit), ("project", .str pr.project),
        ("v", .num pr.v), ("r", serializeU256 pr.r), ("s", serializeU256 pr.s)]

def decodeProof : Json → Option Proof
  | .obj fields => do
    let org ← (fields.lookup "org").bind decodeJAddr
    let contributor ← (fields.lookup "contributor").bind decodeJAddr
    let commit ← (fields.lookup "commit").bind decodeJStr
    let project ← (fields.lookup "project").bind decodeJStr
    let v ← (fields.lookup "v").bind decodeJNat
    let r ← (fields.lookup "r").bind decodeJU256
    let s ← (fields.lookup "s").bind decodeJU256
    pure ⟨org, contributor, commit, project, v, r, s⟩
  | .jval _ => none

/-! ### Outcomes, errors and effects

`Outcome` distinguishes a returned value, a surfaced `anyhow` error and a
panic (`unwrap`/`expect`/`panic!`).  `Error` is the crate's error enum
(lib.rs lines 271-300); `ErrKind` adds the other `anyhow` error sources the
functions surface (`bail!` with a plain message, `serde_json` decode
failures and git-layer failures).  `Effect` records the externally visible
I/O steps of the `create` path, in order. -/

inductive Error where
  | argMissing : String → Error
  | noBlock
  | noBlockHash
  | commitNotExisting
  | signFailure
  | serializeFailure
  | notValidEncoding : String → Error
  | ethSigFailed
  | gpgSigFailed : String → Error
deriving DecidableEq

inductive ErrKind where
  | e : Error → ErrKind
  | msg : String → ErrKind
  | serde : ErrKind
  | git : String → ErrKind
deriving DecidableEq

inductive Outcome (α : Type) where
  | ok : α → Outcome α
  | err : ErrKind → Outcome α
  | panic : String → Outcome α
deriving DecidableEq

inductive Effect where
  | repoOpen
  | findCommit
  | keystoreRead
  | ledgerConnect
  | sign
  | noteWrite
deriving DecidableEq

/-! ### Signing backend

A signer (ethers `Wallet<SigningKey>` or `Ledger`) exposes its address, a
signing operation over a message string producing an `(v, r, s)` signature
(`none` models a backend signing failure), and the cryptographic signature
check `Signature::verify` against a message and an expected address. -/

structure Sig where
  v : Nat
  r : U256
  s : U256
deriving DecidableEq

structure Signer where
  address : Address
  sign : String → Option Sig
  verify : Sig → String → Address → Bool

/-! ### Git repository state

An `Oid` is the 40-character hex rendering of a git object id.  A note's
content is raw bytes; `git2`'s `message()` yields a string only for valid
UTF-8 content, and the content of interest parses as JSON, so content is
modelled as invalid UTF-8, valid UTF-8 that is not JSON, or a JSON value.
`notes` is the association list of the `refs/notes/radicle/rewards`
namespace in enumeration order; git keeps at most one note per annotated
object per namespace, hence the `nodupNotes` invariant.  `walk` is the
revwalk order from `HEAD`. -/

abbrev Oid := String

def NOTES_REF : String := "refs/notes/radicle/rewards"

inductive NoteContent where
  | invalidUtf8
  | invalidJson
  | json : Json → NoteContent
deriving DecidableEq

structure RepoState where
  head : Option Oid
  walk : List Oid
  notes : List (Oid × NoteContent)
  summary : Oid → Option String
  hasCommit : Oid → Bool
  sigAvailable : Bool
  nodupNotes : (notes.map Prod.fst).Nodup

structure World where
  repoAt : String → Option RepoState
  keystoreAt : String → Option Signer
  ledgerAt : String → Option Signer

/-! ### CLI options (lib.rs lines 302-319) -/

structure Options where
  org : Option Address
  contributor : Option Address
  repo : Option String
  project : Option String
  ledger_hdpath : Option String
  keystore : Option String
  commit : Option Oid

/-- Lookup of the note attached to `oid` under the rewards namespace:
`git2`'s `find_note` errs exactly when no note exists there. -/
def findNote (repo : RepoState) (oid : Oid) : Option NoteContent :=
  repo.notes.lookup oid

/-! ### Canonical message construction (lib.rs lines 231-269) -/

/-- The Rust `format!("0x{:0<32}", s)`: fill character `'0'`, left
alignment (so padding goes on the right), minimum width 32. -/
def fmt0x32 (s : String) : String :=
  "0x" ++ s ++ String.mk (List.replicate (32 - s.length) '0')

/-- Puzzle construction part of `create_puzzle` (lib.rs lines 238-250):
format the commit id, z-base-32-decode the project id (`none` when the
Rust decode errs and the `unwrap` panics), hex-encode and format it. -/
def build_puzzle (org contributor : Address) (commit project : String) :
    Option Puzzle :=
  match zbase32Decode project with
  | none => none
  | some bytes => some ⟨org, contributor, fmt0x32 commit, fmt0x32 (hexEncode bytes)⟩

/-- `create_puzzle` (lib.rs lines 231-269): build the puzzle (panicking on
an invalid base-32 project id), serialize it, sign the JSON string, verify
the signature against the signer's own address, and serialize the proof.
The effect list records whether a signing attempt was made. -/
def create_puzzle (signer : Signer) (org contributor : Address)
    (commit project : String) : List Effect × Outcome String :=
  match build_puzzle org contributor commit project with
  | none => ([], .panic "invalid z-base-32 project id: unwrap on a decode error")
  | some puzzle =>
    let puzzle_json := jsonToString (serializePuzzle puzzle)
    match signer.sign puzzle_json with
    | none => ([.sign], .err (.e .signFailure))
    | some sig =>
      if signer.verify sig puzzle_json signer.address then
        ([.sign], .ok (jsonToString (serializeProof
          ⟨org, contributor, puzzle.commit, puzzle.project, sig.v, sig.r, sig.s⟩)))
      else ([.sign], .err (.msg "signature verification failed"))

/-! ### Claim resolver (lib.rs lines 44-104) -/

/-- Wallet selection shared by `claim` (lib.rs lines 54-67): keystore
first, then ledger, else a missing-argument error. -/
def signerAddressOf (opts : Options) (world : World) : Outcome Address :=
  match opts.keystore with
  | some keypath =>
    match world.keystoreAt keypath with
    | some signer => .ok signer.address
    | none => .err (.msg "keystore decryption failed")
  | none =>
    match opts.ledger_hdpath with
    | some hdpath =>
      match world.ledgerAt hdpath with
      | some signer => .ok signer.address
      | none => .err (.msg "ledger connection failed")
    | none =>
      .err (.e (.argMissing
        "no wallet specified: either '--ledger-hdpath' or '--keystore' must be specified"))

/-- The note-enumeration loop of `claim` (lib.rs lines 69-79): for each
note, `message()` is unwrapped (panic on non-UTF-8 content), the content
is decoded as a `Puzzle` (`?` surfaces a serde error), and the annotated
commit is retained when its `contributor` equals the signer's address. -/
def collectClaimable (signerAddress : Address) :
    List (Oid × NoteContent) → Outcome (List Oid)
  | [] => .ok []
  | (oid, c) :: rest =>
    match c with
    | .invalidUtf8 => .panic "note message is not valid UTF-8: unwrap on None"
    | .invalidJson => .err .serde
    | .json j =>
      match decodePuzzle j with
      | none => .err .serde
      | some t =>
        match collectClaimable signerAddress rest with
        | .ok tail =>
          .ok (if signerAddress = t.contributor then oid :: tail else tail)
        | .err e => .err e
        | .panic m => .panic m

/-- `claim` (lib.rs lines 44-104).  The interactive prompt is the external
collaborator `select`; `Rust` returns `Ok(())` after logging the decoded
`Proof`, the embedding returns that decoded `Proof`. -/
def claim (opts : Options) (world : World)
    (select : List Oid → Outcome (Option Nat)) : Outcome Proof :=
  match opts.repo with
  | none => .err (.e (.argMissing "No repo path specified"))
  | some repoPath =>
    match world.repoAt repoPath with
    | none => .err (.msg "failed to open repo")
    | some repo =>
      match signerAddressOf opts world with
      | .err e => .err e
      | .panic m => .panic m
      | .ok signerAddress =>
        match collectClaimable signerAddress repo.notes with
        | .err e => .err e
        | .panic m => .panic m
        | .ok commits =>
          match select commits with
          | .err e => .err e
          | .panic m => .panic m
          | .ok none => .err (.msg "User did not select any commit")
          | .ok (some index) =>
            match commits[index]? with
            | none => .panic "index out of bounds"
            | some oid =>
              match findNote repo oid with
              | none => .err (.git "note not found")
              | some c =>
                match c with
                | .invalidUtf8 => .err (.msg "Not able to obtain commit message")
                | .invalidJson => .err .serde
                | .json j =>
                  match decodeProof j with
                  | none => .err .serde
                  | some pr => .ok pr

/-! ### Discovery engine (lib.rs lines 106-144, 207-213) -/

/-- `format_commit` (lib.rs lines 207-213): look up the commit, then its
one-line summary; a missing summary is a `NotValidEncoding` error.  Real
oids are 40 characters, so the `[..7]` slice is a plain prefix take. -/
def format_commit (repo : RepoState) (oid : Oid) : Outcome (String × String) :=
  if repo.hasCommit oid then
    match repo.summary oid with
    | none => .err (.e (.notValidEncoding "commit summary"))
    | some s => .ok (String.mk (oid.data.take 7), s)
  else .err (.git "commit not found")

/-- The printing loop of `discover` (lib.rs lines 139-142): the `?` on
`format_commit` aborts the whole loop at the first failing commit. -/
def printLoop (repo : RepoState) : List Oid → Outcome (List (String × String))
  | [] => .ok []
  | oid :: rest =>
    match format_commit repo oid with
    | .err e => .err e
    | .panic m => .panic m
    | .ok line =>
      match printLoop repo rest with
      | .ok lines => .ok (line :: lines)
      | .err e => .err e
      | .panic m => .panic m

/-- The revwalk filter of `discover` (lib.rs lines 124-136): keep exactly
the walked commits for which `find_note` errs, i.e. that have no note. -/
def discoverOids (repo : RepoState) : List Oid :=
  repo.walk.filter fun oid => (findNote repo oid).isNone

/-- `discover` (lib.rs lines 109-144).  Note the `panic!` (not `bail!`)
when the repository cannot be opened. -/
def discover (opts : Options) (world : World) :
    Outcome (List (String × String)) :=
  match opts.repo with
  | none => .err (.e (.argMissing "No repo path specified"))
  | some repoPath =>
    match world.repoAt repoPath with
    | none => .panic "failed to open repo"
    | some repo =>
      match repo.head with
      | none => .err (.msg "Not able to find HEAD")
      | some _ => printLoop repo (discoverOids repo)

/-! ### Create (lib.rs lines 150-205) -/

/-- Note attachment after `create_puzzle` (lib.rs lines 189-204): obtain
the repository's configured signature, then write the note. -/
def finishCreate (repo : RepoState) (effs : List Effect) :
    List Effect × Outcome String → List Effect × Outcome Unit
  | (peff, .panic m) => (effs ++ peff, .panic m)
  | (peff, .err e) => (effs ++ peff, .err e)
  | (peff, .ok _) =>
    if repo.sigAvailable then (effs ++ peff ++ [.noteWrite], .ok ())
    else (effs ++ peff, .err (.git "could not obtain repo signature"))

/-- `create` (lib.rs lines 150-205): argument checks, repository open
(`panic!` on failure), commit lookup, wallet selection (keystore first,
then ledger, else a missing-argument error), puzzle creation and signing,
note attachment.  The effect list records the I/O steps in program
order. -/
def create (opts : Options) (world : World) : List Effect × Outcome Unit :=
  match opts.commit with
  | none => ([], .err (.e (.argMissing "No commit specified")))
  | some oid =>
  match opts.contributor with
  | none => ([], .err (.e (.argMissing "No contributor address specified")))
  | some contributor =>
  match opts.org with
  | none => ([], .err (.e (.argMissing "No org address specified")))
  | some org =>
  match opts.project with
  | none => ([], .err (.e (.argMissing "No project id specified")))
  | some project =>
  match opts.repo with
  | none => ([], .err (.e (.argMissing "No repo path specified")))
  | some repoPath =>
  match world.repoAt repoPath with
  | none => ([.repoOpen], .panic "failed to open repo")
  | some repo =>
    if repo.hasCommit oid then
      match opts.keystore with
      | some keypath =>
        match world.keystoreAt keypath with
        | none => ([.repoOpen, .findCommit, .keystoreRead],
                   .err (.msg "keystore decryption failed"))
        | some signer =>
          finishCreate repo [.repoOpen, .findCommit, .keystoreRead]
            (create_puzzle signer org contributor oid project)
      | none =>
        match opts.ledger_hdpath with
        | some hdpath =>
          match world.ledgerAt hdpath with
          | none => ([.repoOpen, .findCommit, .ledgerConnect],
                     .err (.msg "ledger connection failed"))
          | some signer =>
            finishCreate repo [.repoOpen, .findCommit, .ledgerConnect]
              (create_puzzle signer org contributor oid project)
        | none =>
          ([.repoOpen, .findCommit], .err (.e (.argMissing
            "no wallet specified: either '--ledger-hdpath' or '--keystore' must be specified")))
    else ([.repoOpen, .findCommit], .err (.e .commitNotExisting))

/-! ### Concrete states used to evaluate the operations -/

def oid1 : Oid := String.mk (List.replicate 40 '1')

def oid2 : Oid := String.mk (List.replicate 40 '2')

def oid3 : Oid := String.mk (List.replicate 40 '3')

def commit40 : String := String.mk (List.replicate 40 'a')

def addrA : Address := ⟨2730, by norm_num⟩

def addrB : Address := ⟨3003, by norm_num⟩

def r0 : U256 := ⟨2, by norm_num⟩

def s0 : U256 := ⟨3, by norm_num⟩

def sig0 : Sig := ⟨27, r0, s0⟩

/-- A signing backend whose signature check always succeeds. -/
def signerA : Signer := ⟨addrA, fun _ => some sig0, fun _ _ _ => true⟩

def puzzleA : Puzzle := ⟨addrA, addrA, "c", "p"⟩

def proofA : Proof := ⟨addrA, addrA, "0xc", "0xp", 27, r0, s0⟩

/-- Three commits; notes attached to the first and third only. -/
def repo2 : RepoState :=
  ⟨some oid3, [oid3, oid2, oid1],
   [(oid1, .json (serializePuzzle puzzleA)), (oid3, .json (serializePuzzle puzzleA))],
   fun oid => if oid = oid2 then some "second commit" else some "other",
   fun _ => true, true, by decide⟩

def world2 : World := ⟨fun _ => some repo2, fun _ => none, fun _ => none⟩

def opts2 : Options := ⟨none, none, some "r", none, none, none, none⟩

/-- Two noteless commits; the first one has no one-line summary. -/
def repo5 : RepoState :=
  ⟨some oid1, [oid1, oid2], [],
   fun oid => if oid = oid1 then none else some "ok",
   fun _ => true, true, by decide⟩

def world5 : World := ⟨fun _ => some repo5, fun _ => none, fun _ => none⟩

/-- One note whose Puzzle matches the keystore signer's address. -/
def repo6 : RepoState :=
  ⟨some oid1, [oid1], [(oid1, .json (serializePuzzle puzzleA))],
   fun _ => some "ok", fun _ => true, true, by decide⟩

def world6 : World := ⟨fun _ => some repo6, fun _ => some signerA, fun _ => none⟩

def opts6 : Options := ⟨none, none, some "r", none, none, some "k", none⟩

/-- Selection prompt on which the operator declines to choose. -/
def selectNone (commits : List Oid) : Outcome (Option Nat) :=
  match commits with
  | _ => .ok none

/-- One note holding a full serialized Proof for the signer. -/
def repo3 : RepoState :=
  ⟨some oid1, [oid1], [(oid1, .json (serializeProof proofA))],
   fun _ => some "ok", fun _ => true, true, by decide⟩

def world3 : World := ⟨fun _ => some repo3, fun _ => some signerA, fun _ => none⟩

/-- Selection prompt choosing the first entry. -/
def selectFirst (commits : List Oid) : Outcome (Option Nat) :=
  match commits with
  | _ => .ok (some 0)

/-- First note valid UTF-8 but not a Puzzle, second note not UTF-8. -/
def repo10 : RepoState :=
  ⟨some oid1, [oid1, oid2],
   [(oid1, NoteContent.invalidJson), (oid2, NoteContent.invalidUtf8)],
   fun _ => some "ok", fun _ => true, true, by decide⟩

def world10 : World := ⟨fun _ => some repo10, fun _ => some signerA, fun _ => none⟩

/-- All arguments provided but neither wallet backend configured. -/
def opts7 : Options :=
  ⟨some addrA, some addrA, some "r", some "yy", none, none, some oid1⟩

def repo7 : RepoState :=
  ⟨some oid1, [oid1], [], fun _ => some "ok", fun _ => true, true, by decide⟩

def world7 : World := ⟨fun _ => some repo7, fun _ => none, fun _ => none⟩

/-- Keystore configured; used for the create-path theorems. -/
def opts8 : Options :=
  ⟨some addrA, some addrA, some "r", some "0", none, some "k", some oid1⟩

def world8 : World := ⟨fun _ => some repo7, fun _ => some signerA, fun _ => none⟩

/-! ### Helper lemmas -/

theorem string_data_mk (l : List Char) : (String.mk l).data = l := rfl

theorem hexVal_hexDigit : ∀ d, d < 16 → hexVal (hexDigit d) = some d := by decide

theorem toHexFixed_length : ∀ w n, (toHexFixed w n).length = w := by
  intro w
  induction w with
  | zero => intro n; rfl
  | succ w ih => intro n; simp [toHexFixed, ih]

theorem fromHexBE_toHexFixed :
    ∀ w n acc, n < 16 ^ w →
      fromHexBE (toHexFixed w n) acc = some (16 ^ w * acc + n) := by
  intro w
  induction w with
  | zero =>
    intro n acc hn
    interval_cases n
    simp [toHexFixed, fromHexBE]
  | succ w ih =>
    intro n acc hn
    have hq : n / 16 ^ w < 16 := by
      have h16 : 16 ^ (w + 1) = 16 ^ w * 16 := by ring
      exact Nat.div_lt_of_lt_mul (by rw [h16] at hn; omega)
    have hr : n % 16 ^ w < 16 ^ w := Nat.mod_lt _ (Nat.pos_pow_of_pos w (by norm_num))
    simp only [toHexFixed, fromHexBE, hexVal_hexDigit _ hq]
    rw [ih _ _ hr]
    congr 1
    have hdm : 16 ^ w * (n / 16 ^ w) + n % 16 ^ w = n := Nat.div_add_mod n (16 ^ w)
    have hp : (16 : Nat) ^ (w + 1) * acc = 16 ^ w * (16 * acc) := by ring
    rw [Nat.mul_add, Nat.add_assoc, hdm, hp]

theorem decodeJAddr_serializeAddr (a : Address) :
    decodeJAddr (serializeAddr a) = some a := by
  simp only [serializeAddr, decodeJAddr, string_data_mk, toHexFixed_length,
    if_true, fromHexBE_toHexFixed 40 a.val 0 a.isLt, Nat.mul_zero, Nat.zero_add,
    Option.bind_some]
  simp [a.isLt, Fin.eta]

theorem decodeJU256_serializeU256 (a : U256) :
    decodeJU256 (serializeU256 a) = some a := by
  simp only [serializeU256, decodeJU256, string_data_mk, toHexFixed_length,
    if_true, fromHexBE_toHexFixed 64 a.val 0 a.isLt, Nat.mul_zero, Nat.zero_add,
    Option.bind_some]
  simp [a.isLt, Fin.eta]

theorem decodePuzzle_serializePuzzle (p : Puzzle) :
    decodePuzzle (serializePuzzle p) = some p := by
  simp [decodePuzzle, serializePuzzle, List.lookup, decodeJAddr_serializeAddr,
    decodeJStr]

theorem decodeProof_serializeProof (pr : Proof) :
    decodeProof (serializeProof pr) = some pr := by
  simp [decodeProof, serializeProof, List.lookup, decodeJAddr_serializeAddr,
    decodeJU256_serializeU256, decodeJStr, decodeJNat]

theorem decodePuzzle_serializeProof (pr : Proof) :
    decodePuzzle (serializeProof pr) =
      some ⟨pr.org, pr.contributor, pr.commit, pr.project⟩ := by
  simp [decodePuzzle, serializeProof, List.lookup, decodeJAddr_serializeAddr,
    decodeJStr]

/-- Decoding a note as a `Proof` determines its decoding as a `Puzzle`:
both read the same four leading fields of the same JSON object. -/
theorem decodePuzzle_of_decodeProof (j : Json) (pr : Proof)
    (h : decodeProof j = some pr) :
    decodePuzzle j = some ⟨pr.org, pr.contributor, pr.commit, pr.project⟩ := by
  cases j with
  | jval v => simp [decodeProof] at h
  | obj fields =>
    simp only [decodeProof, bind, Option.bind_eq_some, pure,
      Option.some.injEq] at h
    obtain ⟨org, ⟨b1, hb1, hd1⟩, contributor, ⟨b2, hb2, hd2⟩, commit,
      ⟨b3, hb3, hd3⟩, project, ⟨b4, hb4, hd4⟩, v, ⟨b5, hb5, hd5⟩, r,
      ⟨b6, hb6, hd6⟩, s, ⟨b7, hb7, hd7⟩, hpr⟩ := h
    subst hpr
    simp [decodePuzzle, bind, hb1, hd1, hb2, hd2, hb3, hd3, hb4, hd4, pure]

theorem fmt0x32_length (s : String) :
    (fmt0x32 s).length = 2 + max 32 s.length := by
  simp only [fmt0x32, String.length_append]
  have h2 : ("0x" : String).length = 2 := rfl
  have hm : (String.mk (List.replicate (32 - s.length) '0')).length
      = 32 - s.length := by
    show (List.replicate (32 - s.length) '0').length = 32 - s.length
    simp
  rw [h2, hm]
  omega

theorem hexEncode_length (bytes : List Nat) :
    (hexEncode bytes).length = 2 * bytes.length := by
  show ((bytes.map fun b => toHexFixed 2 b).flatten).length = 2 * bytes.length
  induction bytes with
  | nil => rfl
  | cons b bs ih =>
    simp only [List.map_cons, List.flatten_cons, List.length_append, ih,
      toHexFixed_length, List.length_cons]
    ring

theorem printLoop_ok (repo : RepoState) :
    ∀ l : List Oid,
      (∀ oid ∈ l, repo.hasCommit oid = true ∧ (repo.summary oid).isSome) →
      printLoop repo l =
        .ok (l.map fun oid => (String.mk (oid.data.take 7), (repo.summary oid).getD "")) := by
  intro l
  induction l with
  | nil => intro _; rfl
  | cons oid rest ih =>
    intro h
    obtain ⟨hc, hs⟩ := h oid (List.mem_cons_self oid rest)
    obtain ⟨s, hsum⟩ := Option.isSome_iff_exists.mp hs
    simp only [printLoop, format_commit, hc, if_true, hsum]
    rw [ih fun o ho => h o (List.mem_cons_of_mem _ ho)]
    simp [hsum]

theorem printLoop_err (repo : RepoState) :
    ∀ (pre : List Oid) (oid : Oid) (post : List Oid),
      (∀ o ∈ pre, repo.hasCommit o = true ∧ (repo.summary o).isSome) →
      repo.hasCommit oid = true → repo.summary oid = none →
      printLoop repo (pre ++ oid :: post) =
        .err (.e (.notValidEncoding "commit summary")) := by
  intro pre
  induction pre with
  | nil =>
    intro oid post _ hc hn
    simp [printLoop, format_commit, hc, hn]
  | cons o pre ih =>
    intro oid post h hc hn
    obtain ⟨hoc, hos⟩ := h o (List.mem_cons_self o pre)
    obtain ⟨s, hsum⟩ := Option.isSome_iff_exists.mp hos
    simp only [List.cons_append, printLoop, format_commit, hoc, if_true, hsum]
    rw [show pre.append (oid :: post) = pre ++ oid :: post from rfl,
      ih oid post (fun x hx => h x (List.mem_cons_of_mem _ hx)) hc hn]

/-- Every commit retained by the note-enumeration loop comes from a note
whose content decodes as a `Puzzle` whose contributor is the signer. -/
theorem collectClaimable_mem (addr : Address) :
    ∀ (l : List (Oid × NoteContent)) (commits : List Oid),
      collectClaimable addr l = .ok commits →
      ∀ oid ∈ commits, ∃ j t, (oid, NoteContent.json j) ∈ l ∧
        decodePuzzle j = some t ∧ t.contributor = addr := by
  intro l
  induction l with
  | nil =>
    intro commits h oid hmem
    simp only [collectClaimable, Outcome.ok.injEq] at h
    subst h
    simp at hmem
  | cons e rest ih =>
    intro commits h oid hmem
    obtain ⟨o, c⟩ := e
    cases c with
    | invalidUtf8 => simp [collectClaimable] at h
    | invalidJson => simp [collectClaimable] at h
    | json j =>
      simp only [collectClaimable] at h
      cases hd : decodePuzzle j with
      | none => rw [hd] at h; simp at h
      | some t =>
        rw [hd] at h
        cases hr : collectClaimable addr rest with
        | err e => rw [hr] at h; simp at h
        | panic m => rw [hr] at h; simp at h
        | ok tail =>
          rw [hr] at h
          simp only [Outcome.ok.injEq] at h
          subst h
          by_cases haddr : addr = t.contributor
          · rw [if_pos haddr] at hmem
            rcases List.mem_cons.mp hmem with heq | htail
            · subst heq
              exact ⟨j, t, List.mem_cons_self _ _, hd, haddr.symm⟩
            · obtain ⟨j', t', hmem', hd', hc'⟩ := ih tail hr oid htail
              exact ⟨j', t', List.mem_cons_of_mem _ hmem', hd', hc'⟩
          · rw [if_neg haddr] at hmem
            obtain ⟨j', t', hmem', hd', hc'⟩ := ih tail hr oid hmem
            exact ⟨j', t', List.mem_cons_of_mem _ hmem', hd', hc'⟩

/-- In an association list with distinct keys, lookup of a present key
returns its value. -/
theorem lookup_of_mem_nodup :
    ∀ (l : List (Oid × NoteContent)) (oid : Oid) (c : NoteContent),
      (l.map Prod.fst).Nodup → (oid, c) ∈ l → l.lookup oid = some c := by
  intro l
  induction l with
  | nil => intro oid c _ hmem; simp at hmem
  | cons e rest ih =>
    intro oid c hnd hmem
    obtain ⟨k, v⟩ := e
    simp only [List.map_cons, List.nodup_cons] at hnd
    obtain ⟨hk, hnd'⟩ := hnd
    rcases List.mem_cons.mp hmem with heq | htail
    · cases heq
      simp [List.lookup]
    · have hne : oid ≠ k := by
        intro hkk
        subst hkk
        exact hk (List.mem_map.mpr ⟨(oid, c), htail, rfl⟩)
      have hbeq : (oid == k) = false := beq_eq_false_iff_ne.mpr hne
      simp only [List.lookup, hbeq]
      exact ih oid c hnd' htail

theorem collectClaimable_panic (addr : Address) :
    ∀ (pre : List (Oid × NoteContent)) (oid : Oid)
      (post : List (Oid × NoteContent)),
      (∀ e ∈ pre, ∃ j t, e.2 = NoteContent.json j ∧ decodePuzzle j = some t) →
      collectClaimable addr (pre ++ (oid, NoteContent.invalidUtf8) :: post) =
        .panic "note message is not valid UTF-8: unwrap on None" := by
  intro pre
  induction pre with
  | nil => intro oid post _; rfl
  | cons e pre ih =>
    intro oid post h
    obtain ⟨j, t, hj, hd⟩ := h e (List.mem_cons_self e pre)
    obtain ⟨o, c⟩ := e
    simp only at hj
    subst hj
    simp only [List.cons_append, collectClaimable, hd]
    rw [show pre.append ((oid, NoteContent.invalidUtf8) :: post)
        = pre ++ (oid, NoteContent.invalidUtf8) :: post from rfl,
      ih oid post fun x hx => h x (List.mem_cons_of_mem _ hx)]

theorem collectClaimable_no_panic (addr : Address) :
    ∀ l : List (Oid × NoteContent),
      (∀ e ∈ l, e.2 ≠ NoteContent.invalidUtf8) →
      ∀ m, collectClaimable addr l ≠ .panic m := by
  intro l
  induction l with
  | nil => intro _ m h; simp [collectClaimable] at h
  | cons e rest ih =>
    intro hl m h
    obtain ⟨o, c⟩ := e
    cases c with
    | invalidUtf8 => exact hl (o, .invalidUtf8) (List.mem_cons_self _ _) rfl
    | invalidJson => simp [collectClaimable] at h
    | json j =>
      simp only [collectClaimable] at h
      cases hd : decodePuzzle j with
      | none => rw [hd] at h; simp at h
      | some t =>
        rw [hd] at h
        cases hr : collectClaimable addr rest with
        | ok tail => rw [hr] at h; simp at h
        | err e => rw [hr] at h; simp at h
        | panic m' =>
          exact ih (fun x hx => hl x (List.mem_cons_of_mem _ hx)) m' hr

/-! ### Claim theorems -/

/-- Claim C1, counterexample: a real 40-character commit id passes through
`build_puzzle` with a 40-character hex body (field length 42, not the
claimed 2 + 32 = 34), and the one-character base-32 input "b" decodes to
zero full bytes, not a single byte. -/
theorem c1_counterexample :
    (build_puzzle addrA addrA commit40 "b").map (fun p => p.commit.length) = some 42 ∧
    (build_puzzle addrA addrA commit40 "b").map (fun p => p.commit.length) ≠ some 34 ∧
    (zbase32Decode "b").map List.length = some 0 ∧
    (zbase32Decode "b").map List.length ≠ some 1 := by
  refine ⟨by decide, by decide, by decide, by decide⟩

/-- Claim C1 (amended): commit and project are rendered as `0x` followed by
the natural hex body padded on the right with `'0'` to a minimum width of
32 characters; bodies already at or beyond 32 characters (such as a
40-character commit id) pass through unpadded.  The one-character base-32
input "b" contains no full byte, so it decodes to the empty byte string and
the project field is `0x` followed by 32 zeros. -/
theorem c1_build_puzzle_min_width_padding :
    ∀ (org contributor : Address) (commit project : String) (bytes : List Nat),
      zbase32Decode project = some bytes →
      ∃ p, build_puzzle org contributor commit project = some p ∧
        p.commit.length = 2 + max 32 commit.length ∧
        p.project.length = 2 + max 32 (2 * bytes.length) ∧
        (project = "b" → p.project = "0x00000000000000000000000000000000") := by
  intro org contributor commit project bytes hdec
  refine ⟨⟨org, contributor, fmt0x32 commit, fmt0x32 (hexEncode bytes)⟩,
    ?_, ?_, ?_, ?_⟩
  · simp [build_puzzle, hdec]
  · exact fmt0x32_length commit
  · rw [fmt0x32_length, hexEncode_length]
  · intro hb
    subst hb
    have h0 : zbase32Decode "b" = some [] := by decide
    rw [h0] at hdec
    injection hdec with hbytes
    subst hbytes
    show fmt0x32 (hexEncode []) = "0x00000000000000000000000000000000"
    decide

/-- Witness for C1 (amended) at the spec's own scenario input "b". -/
theorem c1_witness :
    ∃ p, build_puzzle addrA addrA "c" "b" = some p ∧
      p.commit.length = 2 + max 32 ("c" : String).length ∧
      p.project.length = 2 + max 32 (2 * ([] : List Nat).length) ∧
      ("b" = "b" → p.project = "0x00000000000000000000000000000000") :=
  c1_build_puzzle_min_width_padding addrA addrA "c" "b" [] (by decide)

/-- Claim C2: a commit enters discovery's output exactly when it is reached
by the walk from HEAD and no note exists for it under the rewards
namespace; under the side conditions that the repository opens, HEAD
resolves, and each listed commit has a summary, `discover` returns
precisely the formatted noteless walked commits. -/
theorem c2_discover_lists_exactly_noteless :
    ∀ (opts : Options) (world : World) (repoPath : String) (repo : RepoState)
      (target : Oid),
      opts.repo = some repoPath → world.repoAt repoPath = some repo →
      repo.head = some target →
      (∀ oid ∈ discoverOids repo,
        repo.hasCommit oid = true ∧ (repo.summary oid).isSome) →
      discover opts world = .ok ((discoverOids repo).map fun oid =>
        (String.mk (oid.data.take 7), (repo.summary oid).getD "")) ∧
      ∀ oid, oid ∈ discoverOids repo ↔
        oid ∈ repo.walk ∧ findNote repo oid = none := by
  intro opts world repoPath repo target hr hw hh hsum
  constructor
  · simp only [discover, hr, hw, hh]
    exact printLoop_ok repo _ hsum
  · intro oid
    simp [discoverOids, List.mem_filter, Option.isNone_iff_eq_none]

/-- Witness for C2 at the spec's scenario: three commits, notes on the
first and third only; discovery lists exactly the second. -/
theorem c2_witness :
    discover opts2 world2 = .ok [(String.mk (List.replicate 7 '2'), "second commit")] ∧
    (oid2 ∈ discoverOids repo2 ↔ oid2 ∈ repo2.walk ∧ findNote repo2 oid2 = none) ∧
    (oid1 ∈ discoverOids repo2 ↔ oid1 ∈ repo2.walk ∧ findNote repo2 oid1 = none) := by
  have h := c2_discover_lists_exactly_noteless opts2 world2 "r" repo2 oid3
    rfl rfl rfl (by decide)
  exact ⟨h.1.trans (by decide), h.2 oid2, h.2 oid1⟩

/-- Claim C3: whenever `claim` returns a decoded Proof, the wallet
resolution succeeded and the Proof's contributor equals the querying
signer's address. -/
theorem c3_claim_contributor_matches_signer :
    ∀ (opts : Options) (world : World)
      (select : List Oid → Outcome (Option Nat)) (pr : Proof),
      claim opts world select = .ok pr →
      ∃ a, signerAddressOf opts world = .ok a ∧ pr.contributor = a := by
  intro opts world select pr h
  unfold claim at h
  cases hro : opts.repo with
  | none => simp [hro] at h
  | some repoPath =>
  simp only [hro] at h
  cases hw : world.repoAt repoPath with
  | none => simp [hw] at h
  | some repo =>
  simp only [hw] at h
  cases hs : signerAddressOf opts world with
  | err e => simp [hs] at h
  | panic m => simp [hs] at h
  | ok addr =>
  simp only [hs] at h
  cases hc : collectClaimable addr repo.notes with
  | err e => simp [hc] at h
  | panic m => simp [hc] at h
  | ok commits =>
  simp only [hc] at h
  cases hsel : select commits with
  | err e => simp [hsel] at h
  | panic m => simp [hsel] at h
  | ok osel =>
  cases osel with
  | none => simp [hsel] at h
  | some index =>
  simp only [hsel] at h
  cases hidx : commits[index]? with
  | none => simp [hidx] at h
  | some oid =>
  simp only [hidx] at h
  cases hfn : findNote repo oid with
  | none => simp [hfn] at h
  | some c =>
  cases c with
  | invalidUtf8 => simp [hfn] at h
  | invalidJson => simp [hfn] at h
  | json j =>
  simp only [hfn] at h
  cases hdp : decodeProof j with
  | none => simp [hdp] at h
  | some pr2 =>
  simp only [hdp, Outcome.ok.injEq] at h
  subst h
  have hmem : oid ∈ commits := List.getElem?_mem hidx
  obtain ⟨j2, t, hjmem, hdec, hcontrib⟩ :=
    collectClaimable_mem addr repo.notes commits hc oid hmem
  have hlk : repo.notes.lookup oid = some (NoteContent.json j2) :=
    lookup_of_mem_nodup repo.notes oid _ repo.nodupNotes hjmem
  have hfn2 : repo.notes.lookup oid = some (NoteContent.json j) := hfn
  rw [hfn2] at hlk
  injection hlk with hlk2
  injection hlk2 with hj
  subst hj
  have hpd := decodePuzzle_of_decodeProof j pr2 hdp
  rw [hdec] at hpd
  injection hpd with ht
  refine ⟨addr, rfl, ?_⟩
  have hct : pr2.contributor = t.contributor := by rw [ht]
  rw [hct, hcontrib]

/-- Witness for C3: a concrete run of `claim` over one matching note
returns the stored Proof, whose contributor is the signer's address. -/
theorem c3_witness :
    ∃ a, signerAddressOf opts6 world3 = .ok a ∧ proofA.contributor = a :=
  c3_claim_contributor_matches_signer opts6 world3 selectFirst proofA (by decide)

/-- Claim C4: serde round trips.  Decoding the serialization of a Puzzle
or a Proof returns it unchanged, and decoding a serialized Proof with the
Puzzle target shape succeeds, yielding the Puzzle fields (the twice-decode
pattern of the claim resolver tolerates the extra `v`, `r`, `s` fields). -/
theorem c4_serde_round_trip :
    ∀ (p : Puzzle) (pr : Proof),
      decodePuzzle (serializePuzzle p) = some p ∧
      decodeProof (serializeProof pr) = some pr ∧
      decodePuzzle (serializeProof pr) =
        some ⟨pr.org, pr.contributor, pr.commit, pr.project⟩ :=
  fun p pr => ⟨decodePuzzle_serializePuzzle p, decodeProof_serializeProof pr,
    decodePuzzle_serializeProof pr⟩

/-- Claim C5, counterexample: with two noteless reachable commits of which
the first has no obtainable summary, `discover` aborts with the data error
and produces no output at all; in particular the remaining noteless commit
`oid2` (which is in the discovery set) is never listed. -/
theorem c5_counterexample :
    discover opts2 world5 = .err (.e (.notValidEncoding "commit summary")) ∧
    oid2 ∈ discoverOids repo5 := by
  exact ⟨rfl, by decide⟩

/-- Claim C5 (amended): when a discovered commit's one-line summary cannot
be obtained, `discover` fails with the `NotValidEncoding "commit summary"`
data error and aborts the whole enumeration, producing no output for any
remaining commit. -/
theorem c5_discover_aborts_on_missing_summary :
    ∀ (opts : Options) (world : World) (repoPath : String) (repo : RepoState)
      (target : Oid) (pre : List Oid) (oid : Oid) (post : List Oid),
      opts.repo = some repoPath → world.repoAt repoPath = some repo →
      repo.head = some target →
      discoverOids repo = pre ++ oid :: post →
      (∀ o ∈ pre, repo.hasCommit o = true ∧ (repo.summary o).isSome) →
      repo.hasCommit oid = true → repo.summary oid = none →
      discover opts world = .err (.e (.notValidEncoding "commit summary")) := by
  intro opts world repoPath repo target pre oid post hr hw hh hsplit hpre hc hn
  simp only [discover, hr, hw, hh]
  rw [hsplit]
  exact printLoop_err repo pre oid post hpre hc hn

/-- Witness for C5 (amended) at the concrete two-commit repository. -/
theorem c5_witness :
    discover opts2 world5 = .err (.e (.notValidEncoding "commit summary")) ∧
    discoverOids repo5 = [] ++ oid1 :: [oid2] :=
  ⟨c5_discover_aborts_on_missing_summary opts2 world5 "r" repo5 oid1 [] oid1
      [oid2] rfl rfl rfl (by decide) (by simp) (by decide) (by decide),
    by decide⟩

/-- Claim C6, counterexample: with one selectable entry retained, the
operator's declining to choose makes `claim` return the error
"User did not select any commit" — an error outcome, not a non-error
"no selection" result. -/
theorem c6_counterexample :
    claim opts6 world6 selectNone = .err (.msg "User did not select any commit") ∧
    collectClaimable addrA repo6.notes = .ok [oid1] := by
  exact ⟨by decide, by decide⟩

/-- Claim C6 (amended): when the retained set is non-empty and the
selection prompt yields no choice, `claim` fails with the `bail!` error
"User did not select any commit". -/
theorem c6_claim_decline_is_error :
    ∀ (opts : Options) (world : World)
      (select : List Oid → Outcome (Option Nat)) (repoPath : String)
      (repo : RepoState) (addr : Address) (commits : List Oid),
      opts.repo = some repoPath → world.repoAt repoPath = some repo →
      signerAddressOf opts world = .ok addr →
      collectClaimable addr repo.notes = .ok commits →
      commits ≠ [] →
      select commits = .ok none →
      claim opts world select = .err (.msg "User did not select any commit") := by
  intro opts world select repoPath repo addr commits hr hw hs hc hne hsel
  simp only [claim, hr, hw, hs, hc, hsel]

/-- Witness for C6 (amended) at the concrete one-note repository. -/
theorem c6_witness :
    claim opts6 world6 selectNone = .err (.msg "User did not select any commit") :=
  c6_claim_decline_is_error opts6 world6 selectNone "r" repo6 addrA [oid1]
    rfl rfl rfl (by decide) (by simp) rfl

/-- Claim C7, counterexample: with every argument supplied but no wallet
backend configured, `create` does fail with the missing-argument error, but
only after the repository has been opened and the commit resolved — the
effect trace already contains repository I/O when the error is raised. -/
theorem c7_counterexample :
    create opts7 world7 = ([Effect.repoOpen, Effect.findCommit],
      .err (.e (.argMissing
        "no wallet specified: either '--ledger-hdpath' or '--keystore' must be specified"))) ∧
    Effect.repoOpen ∈ (create opts7 world7).1 := by
  exact ⟨rfl, by decide⟩

/-- Claim C7 (amended): with all arguments supplied and neither keystore
nor hardware-wallet path configured, `create` fails with the
missing-argument wallet error, but only after opening the repository and
resolving the commit; no signing and no note write occur. -/
theorem c7_create_missing_wallet_after_repo_io :
    ∀ (opts : Options) (world : World) (oid : Oid) (contributor org : Address)
      (project repoPath : String) (repo : RepoState),
      opts.commit = some oid → opts.contributor = some contributor →
      opts.org = some org → opts.project = some project →
      opts.repo = some repoPath → opts.keystore = none →
      opts.ledger_hdpath = none →
      world.repoAt repoPath = some repo → repo.hasCommit oid = true →
      create opts world = ([Effect.repoOpen, Effect.findCommit],
        .err (.e (.argMissing
          "no wallet specified: either '--ledger-hdpath' or '--keystore' must be specified"))) := by
  intro opts world oid contributor org project repoPath repo
  intro hco hcon horg hproj hr hks hlh hw hhas
  simp only [create, hco, hcon, horg, hproj, hr, hks, hlh, hw, hhas, if_true]

/-- Witness for C7 (amended) at the concrete wallet-less configuration. -/
theorem c7_witness :
    create opts7 world7 = ([Effect.repoOpen, Effect.findCommit],
      .err (.e (.argMissing
        "no wallet specified: either '--ledger-hdpath' or '--keystore' must be specified"))) :=
  c7_create_missing_wallet_after_repo_io opts7 world7 oid1 addrA addrA "yy" "r"
    repo7 rfl rfl rfl rfl rfl rfl rfl rfl rfl

/-- Claim C8, counterexample: `"0"` is not a z-base-32 string, and
`create_puzzle` on it panics (the `unwrap` on the decode result) instead of
returning a decoding error. -/
theorem c8_counterexample :
    zbase32Decode "0" = none ∧
    create_puzzle signerA addrA addrA "c" "0" =
      ([], .panic "invalid z-base-32 project id: unwrap on a decode error") := by
  exact ⟨rfl, rfl⟩

/-- Claim C8 (amended): on a project identifier that is not valid
base-32, `create_puzzle` panics (rather than returning a decoding error)
before any signing attempt: no signing effect and no note write occur. -/
theorem c8_create_puzzle_panics_before_signing :
    ∀ (signer : Signer) (org contributor : Address) (commit project : String),
      zbase32Decode project = none →
      create_puzzle signer org contributor commit project =
        ([], .panic "invalid z-base-32 project id: unwrap on a decode error") ∧
      Effect.sign ∉ (create_puzzle signer org contributor commit project).1 ∧
      Effect.noteWrite ∉ (create_puzzle signer org contributor commit project).1 := by
  intro signer org contributor commit project hdec
  have h : create_puzzle signer org contributor commit project =
      ([], .panic "invalid z-base-32 project id: unwrap on a decode error") := by
    simp [create_puzzle, build_puzzle, hdec]
  exact ⟨h, by rw [h]; simp, by rw [h]; simp⟩

/-- Witness for C8 (amended) at the invalid project identifier `"0"`. -/
theorem c8_witness :
    create_puzzle signerA addrA addrA "c" "0" =
      ([], .panic "invalid z-base-32 project id: unwrap on a decode error") ∧
    Effect.sign ∉ (create_puzzle signerA addrA addrA "c" "0").1 ∧
    Effect.noteWrite ∉ (create_puzzle signerA addrA addrA "c" "0").1 :=
  c8_create_puzzle_panics_before_signing signerA addrA addrA "c" "0" rfl

/-- Claim C9: whenever `create_puzzle` succeeds, the returned Proof string
embeds a signature that was produced over the canonical JSON serialization
of the Puzzle and that passed `Signature::verify` against that JSON under
the signer's own address. -/
theorem c9_create_puzzle_verifies_signature :
    ∀ (signer : Signer) (org contributor : Address) (commit project : String)
      (effs : List Effect) (out : String),
      create_puzzle signer org contributor commit project = (effs, .ok out) →
      ∃ puzzle sig,
        build_puzzle org contributor commit project = some puzzle ∧
        signer.sign (jsonToString (serializePuzzle puzzle)) = some sig ∧
        signer.verify sig (jsonToString (serializePuzzle puzzle))
          signer.address = true ∧
        out = jsonToString (serializeProof
          ⟨org, contributor, puzzle.commit, puzzle.project,
            sig.v, sig.r, sig.s⟩) := by
  intro signer org contributor commit project effs out h
  cases hbp : build_puzzle org contributor commit project with
  | none => simp [create_puzzle, hbp] at h
  | some puzzle =>
  simp only [create_puzzle, hbp] at h
  cases hsg : signer.sign (jsonToString (serializePuzzle puzzle)) with
  | none => simp [hsg] at h
  | some sig =>
  simp only [hsg] at h
  by_cases hv : signer.verify sig (jsonToString (serializePuzzle puzzle))
      signer.address = true
  · rw [if_pos hv] at h
    have hout := congrArg Prod.snd h
    simp only [Outcome.ok.injEq] at hout
    exact ⟨puzzle, sig, rfl, hsg, hv, hout.symm⟩
  · rw [if_neg hv] at h
    simp at h

/-- Witness for C9: a successful concrete run of `create_puzzle`. -/
theorem c9_witness :
    ∃ puzzle sig,
      build_puzzle addrA addrB "c" "yy" = some puzzle ∧
      signerA.sign (jsonToString (serializePuzzle puzzle)) = some sig ∧
      signerA.verify sig (jsonToString (serializePuzzle puzzle))
        signerA.address = true ∧
      jsonToString (serializeProof
          ⟨addrA, addrB, fmt0x32 "c", fmt0x32 (hexEncode [0]), 27, r0, s0⟩) =
        jsonToString (serializeProof
          ⟨addrA, addrB, puzzle.commit, puzzle.project,
            sig.v, sig.r, sig.s⟩) :=
  c9_create_puzzle_verifies_signature signerA addrA addrB "c" "yy"
    [Effect.sign]
    (jsonToString (serializeProof
      ⟨addrA, addrB, fmt0x32 "c", fmt0x32 (hexEncode [0]), 27, r0, s0⟩)) rfl

/-- Claim C10, counterexample: a note with non-UTF-8 content preceded by a
valid-UTF-8 note that is not a Puzzle makes `claim` surface the serde
error — it does not panic even though a non-UTF-8 note exists under the
namespace. -/
theorem c10_counterexample :
    claim opts6 world10 selectNone = .err .serde ∧
    NoteContent.invalidUtf8 ∈ repo10.notes.map Prod.snd := by
  exact ⟨rfl, by decide⟩

/-- Claim C10 (amended): the note-enumeration loop of `claim` panics at
the first note (in enumeration order) whose content is not valid UTF-8,
provided every earlier note decodes as a Puzzle; conversely, when every
stored note has valid UTF-8 content the enumeration never panics. -/
theorem c10_claim_note_utf8_panic :
    (∀ (addr : Address) (pre : List (Oid × NoteContent)) (oid : Oid)
        (post : List (Oid × NoteContent)),
      (∀ e ∈ pre, ∃ j t, e.2 = NoteContent.json j ∧ decodePuzzle j = some t) →
      collectClaimable addr (pre ++ (oid, NoteContent.invalidUtf8) :: post) =
        .panic "note message is not valid UTF-8: unwrap on None") ∧
    (∀ (addr : Address) (l : List (Oid × NoteContent)),
      (∀ e ∈ l, e.2 ≠ NoteContent.invalidUtf8) →
      ∀ m, collectClaimable addr l ≠ .panic m) :=
  ⟨collectClaimable_panic, collectClaimable_no_panic⟩

/-- Witness for C10 (amended): the loop panics after one well-formed note
followed by a non-UTF-8 note, and does not panic on the well-formed note
alone. -/
theorem c10_witness :
    collectClaimable addrA
        [(oid1, NoteContent.json (serializePuzzle puzzleA)),
         (oid2, NoteContent.invalidUtf8)] =
      .panic "note message is not valid UTF-8: unwrap on None" ∧
    collectClaimable addrA [(oid1, NoteContent.json (serializePuzzle puzzleA))] ≠
      .panic "note message is not valid UTF-8: unwrap on None" := by
  constructor
  · exact c10_claim_note_utf8_panic.1 addrA
      [(oid1, NoteContent.json (serializePuzzle puzzleA))] oid2 []
      (by
        intro e he
        simp only [List.mem_singleton] at he
        subst he
        exact ⟨serializePuzzle puzzleA, puzzleA, rfl,
          decodePuzzle_serializePuzzle puzzleA⟩)
  · exact c10_claim_note_utf8_panic.2 addrA
      [(oid1, NoteContent.json (serializePuzzle puzzleA))]
      (by
        intro e he
        simp only [List.mem_singleton] at he
        subst he
        simp)
      "note message is not valid UTF-8: unwrap on None"
